import Mathlib

/-!
Verification of the Feature-Engineering repository.

The repository's single source file `src/feature_engineering.py` is a script
that performs manual pandas feature engineering (in-place column assignments,
a group-by aggregation, a left merge) and then drives the featuretools deep
feature synthesis engine (entity registration, relationships, `ft.dfs`,
feature-matrix computation).  The engine itself — entities, the relationship
graph, primitives, feature-definition trees, synthesis and materialization —
is not part of the repository's sources, so those components are modelled
from the specification; the pandas portion is translated from the source.

Cells are modelled as `Option ℚ`: `none` is the missing-value marker
(pandas NaN / null), `some q` a concrete value.  Timestamps and keys are
also rationals.  Calendar extraction (month/year of a date) and `np.log`
are modelled as uninterpreted functions where needed, since the claims
never depend on their concrete values.
-/

/-- A cell of a table: `none` is the missing-value marker (NaN/null). -/
abbrev Cell : Type := Option ℚ

/-- Semantic column types, as in the spec's data model. -/
inductive ColType where
  | numeric | categorical | datetime | boolean
deriving DecidableEq, Repr

/-- A column: a name together with its declared semantic type. -/
structure Column where
  cname : String
  ctype : ColType
deriving DecidableEq, Repr

/-- A table: declared columns plus row data; each row is a list of cells
positionally aligned with `cols`. -/
structure Table where
  cols : List Column
  rows : List (List Cell)
deriving DecidableEq, Repr

/-- Names of a table's columns, in declaration order. -/
def Table.colNames (t : Table) : List String := t.cols.map Column.cname

/-- Position of a named column, if declared. -/
def Table.colIdx (t : Table) (c : String) : Option Nat :=
  t.colNames.indexOf? c

/-- The declared semantic type of a named column, if declared. -/
def Table.colType (t : Table) (c : String) : Option ColType :=
  (t.cols.find? (fun col => col.cname == c)).map Column.ctype

/-- The cell of one row under a named column; `none` when the column is
missing or the cell is null. -/
def Table.getCell (t : Table) (row : List Cell) (c : String) : Cell :=
  match t.colIdx c with
  | some i => row.getD i none
  | none => none

/-- All cells of one named column, row by row. -/
def Table.column (t : Table) (c : String) : List Cell :=
  t.rows.map (fun r => t.getCell r c)

/-- An entity: a registered table with its unique index and optional time
index (spec §3, §4.1). -/
structure Entity where
  name : String
  table : Table
  index : String
  timeIndex : Option String
deriving DecidableEq, Repr

/-- Error taxonomy relevant to registration (spec §7). -/
inductive SchemaError where
  | missingIndex | nullIndex | duplicateIndex
deriving DecidableEq, Repr

/-- Modelled from the spec: `register_entity` of the entity/relationship-graph
component (spec §4.1), which the source script reaches only through
`featuretools.EntitySet.entity_from_dataframe`.  It fails with `SchemaError`
when the declared index column is missing, contains nulls, or is non-unique;
otherwise it returns the registered entity. -/
def registerEntity (name : String) (t : Table) (index : String)
    (timeIndex : Option String) : Except SchemaError Entity :=
  if t.colIdx index = none then
    .error .missingIndex
  else if (t.column index).any (fun c => c = none) then
    .error .nullIndex
  else if ¬ (t.column index).Nodup then
    .error .duplicateIndex
  else
    .ok ⟨name, t, index, timeIndex⟩

/-- A relationship: a directed one-(parent)-to-many-(child) link between
two entities on a shared key (spec §3). -/
structure Relationship where
  parent : String
  parentKey : String
  child : String
  childKey : String
deriving DecidableEq, Repr

/-- An entity set: registered entities (in registration order) and the
relationship edges between them. -/
structure EntitySet where
  entities : List Entity
  rels : List Relationship
deriving DecidableEq, Repr

/-- Look up a registered entity by name. -/
def EntitySet.lookup (es : EntitySet) (n : String) : Option Entity :=
  es.entities.find? (fun e => e.name == n)

/-- One-step parent→child edge test over a list of relationship edges. -/
def edgeB (rels : List Relationship) (a b : String) : Bool :=
  rels.any (fun r => r.parent == a && r.child == b)

/-- Fuel-bounded reachability along directed parent→child edges. -/
def reachB (rels : List Relationship) : Nat → String → String → Bool
  | 0, a, b => a == b
  | fuel + 1, a, b =>
      a == b ||
      rels.any (fun r => r.parent == a && reachB rels fuel r.child b)

/-- Error taxonomy relevant to relationship registration (spec §7). -/
inductive RelationshipError where
  | typeMismatch | nonUniqueParentKey | cycle
deriving DecidableEq, Repr

/-- Does adding the edge `parent→child` close a directed cycle?  It does
exactly when the parent is already reachable from the child (or the edge is
a self-loop, the `0` fuel case of reachability). -/
def wouldCycle (es : EntitySet) (r : Relationship) : Bool :=
  reachB es.rels es.rels.length.succ r.child r.parent

/-- Are the two key columns' declared semantic types different?  A key
column missing from its entity (or an unregistered entity) has no type and
counts as a mismatch against any typed column. -/
def keyTypesMismatch (es : EntitySet) (r : Relationship) : Bool :=
  let pt := (es.lookup r.parent).bind (fun e => e.table.colType r.parentKey)
  let ct := (es.lookup r.child).bind (fun e => e.table.colType r.childKey)
  pt != ct

/-- Is the parent key non-unique (or null somewhere) in the parent entity?
The spec's one-to-many invariant requires the parent side of the join key
to identify parent rows uniquely. -/
def parentKeyNotUnique (es : EntitySet) (r : Relationship) : Bool :=
  match es.lookup r.parent with
  | some e => ¬ (e.table.column r.parentKey).Nodup
  | none => true

/-- Modelled from the spec: `add_relationship` of the relationship-graph
component (spec §4.1), reached in the source only through
`featuretools.EntitySet.add_relationship`.  It fails with
`RelationshipError` when the key column types differ, the parent key is not
unique in the parent entity, or adding the edge would create a cycle;
otherwise it returns the extended entity set. -/
def addRelationship (es : EntitySet) (r : Relationship) :
    Except RelationshipError EntitySet :=
  if keyTypesMismatch es r then
    .error .typeMismatch
  else if parentKeyNotUnique es r then
    .error .nonUniqueParentKey
  else if wouldCycle es r then
    .error .cycle
  else
    .ok ⟨es.entities, es.rels ++ [r]⟩

/-- Aggregation primitives modelled from the spec's built-in set (§4.2);
`std` is omitted (its value needs a real square root, and no claim
mentions it). -/
inductive AggPrim where
  | mean | max | min | count | percentTrue | last | sum
deriving DecidableEq, Repr

/-- Unary transformation primitives modelled from the spec's built-in set
(§4.2); calendar extractions are omitted (their values need a calendar,
and no claim depends on them). -/
inductive TransPrim1 where
  | absval | isNull
deriving DecidableEq, Repr

/-- Binary transformation primitives between two numeric columns of the
same entity (spec §4.2). -/
inductive TransPrim2 where
  | add | subtract | multiply | divide
deriving DecidableEq, Repr

/-- Display name of an aggregation primitive, as used in canonical feature
names (`MEAN(...)`, `LAST(...)`, ...). -/
def AggPrim.pname : AggPrim → String
  | .mean => "MEAN" | .max => "MAX" | .min => "MIN" | .count => "COUNT"
  | .percentTrue => "PERCENT_TRUE" | .last => "LAST" | .sum => "SUM"

/-- Display name of a unary transformation primitive. -/
def TransPrim1.pname : TransPrim1 → String
  | .absval => "ABSOLUTE" | .isNull => "IS_NULL"

/-- Display name of a binary transformation primitive. -/
def TransPrim2.pname : TransPrim2 → String
  | .add => "ADD" | .subtract => "SUBTRACT"
  | .multiply => "MULTIPLY" | .divide => "DIVIDE"

/-- Modelled from the spec: the Feature Definition tree (spec §3, §4.3) of
the synthesis engine, absent from the source.  `identity` is a raw column
of an entity; `transform1`/`transform2` are same-entity row-wise
compositions (the spec's built-in transformations are unary or binary);
`aggregate` computes its child feature on the relationship's child entity,
groups by the relationship key and applies the aggregation primitive. -/
inductive FeatureDef where
  | identity (entity col : String)
  | transform1 (p : TransPrim1) (child : FeatureDef)
  | transform2 (p : TransPrim2) (left right : FeatureDef)
  | aggregate (p : AggPrim) (rel : Relationship) (child : FeatureDef)
deriving DecidableEq, Repr

/-- Canonical name of a feature definition (spec §4.3): the raw column name
for an identity; `PRIMITIVE(child_name)` for a transform (with the two
operand names comma-separated in the binary case);
`PRIMITIVE(child_entity.child_name)` for an aggregate; recursively. -/
def FeatureDef.fname : FeatureDef → String
  | .identity _ col => col
  | .transform1 p c => p.pname ++ "(" ++ c.fname ++ ")"
  | .transform2 p a b => p.pname ++ "(" ++ a.fname ++ ", " ++ b.fname ++ ")"
  | .aggregate p r c => p.pname ++ "(" ++ r.child ++ "." ++ c.fname ++ ")"

/-- Depth of a feature definition: 0 for identity, otherwise one more than
the maximal child depth (spec §3). -/
def FeatureDef.depth : FeatureDef → Nat
  | .identity _ _ => 0
  | .transform1 _ c => c.depth + 1
  | .transform2 _ a b => Nat.max a.depth b.depth + 1
  | .aggregate _ _ c => c.depth + 1

/-- Does a feature definition reference the given relationship anywhere in
its tree? -/
def FeatureDef.usesRel (r : Relationship) : FeatureDef → Bool
  | .identity _ _ => false
  | .transform1 _ c => c.usesRel r
  | .transform2 _ a b => a.usesRel r || b.usesRel r
  | .aggregate _ r' c => r' == r || c.usesRel r

/-- The canonical name emitted as a flat token sequence, mimicking a
builder that traverses the tree and pushes string pieces instead of
concatenating recursively.  Used to show the canonical name is independent
of the build order. -/
def FeatureDef.nameTokens : FeatureDef → List String
  | .identity _ col => [col]
  | .transform1 p c => [p.pname, "("] ++ c.nameTokens ++ [")"]
  | .transform2 p a b =>
      [p.pname, "("] ++ a.nameTokens ++ [", "] ++ b.nameTokens ++ [")"]
  | .aggregate p r c =>
      [p.pname, "(", r.child, "."] ++ c.nameTokens ++ [")"]

/-- The non-null values among a list of cells (pandas aggregations skip
missing values). -/
def somes (vs : List Cell) : List ℚ := vs.reduceOption

/-- Mean of the non-null values of a list of cells; the missing-value
marker when there are none. -/
def meanCells (vs : List Cell) : Cell :=
  match somes vs with
  | [] => none
  | xs => some (xs.sum / xs.length)

/-- Maximum of the non-null values; missing-value marker when none. -/
def maxCells (vs : List Cell) : Cell :=
  match somes vs with
  | [] => none
  | x :: xs => some (xs.foldl Max.max x)

/-- Minimum of the non-null values; missing-value marker when none. -/
def minCells (vs : List Cell) : Cell :=
  match somes vs with
  | [] => none
  | x :: xs => some (xs.foldl Min.min x)

/-- Should a row with time `tnew` supersede the current pick with time
`told` for the `last` aggregation?  Later timestamps win; equal timestamps
defer to row order (the later row supersedes); a timestamped row beats an
untimestamped one. -/
def supersedes (told tnew : Option ℚ) : Bool :=
  match told, tnew with
  | some a, some b => a ≤ b
  | none, _ => true
  | some _, none => false

/-- Selection loop for the `last` aggregation over (value, row-time)
pairs. -/
def lastGo (acc : Cell × Option ℚ) : List (Cell × Option ℚ) → Cell
  | [] => acc.1
  | q :: qs => lastGo (if supersedes acc.2 q.2 then q else acc) qs

/-- The `last` aggregation: value of the row with the latest time index,
ties broken by original row order; missing-value marker on an empty
group. -/
def lastCells (ps : List (Cell × Option ℚ)) : Cell :=
  match ps with
  | [] => none
  | p :: rest => lastGo p rest

/-- Percent-true over boolean cells encoded as 1/0; missing-value marker
when no non-null values exist. -/
def percentTrueCells (vs : List Cell) : Cell :=
  match somes vs with
  | [] => none
  | xs => some (((xs.filter (fun x => x == 1)).length : ℚ) / (xs.length : ℚ))

/-- Modelled from the spec: apply an aggregation primitive to the child
(value, row-time) pairs of one group (spec §4.5).  Empty groups yield the
primitive-defined default: 0 for `count` (and for `sum`, as an empty sum),
the missing-value marker for the rest. -/
def applyAgg : AggPrim → List (Cell × Option ℚ) → Cell
  | .count, ps => some ((somes (ps.map Prod.fst)).length : ℚ)
  | .mean, ps => meanCells (ps.map Prod.fst)
  | .max, ps => maxCells (ps.map Prod.fst)
  | .min, ps => minCells (ps.map Prod.fst)
  | .sum, ps => some (somes (ps.map Prod.fst)).sum
  | .percentTrue, ps => percentTrueCells (ps.map Prod.fst)
  | .last, ps => lastCells ps

/-- The default an aggregation primitive yields for a parent instance with
no matching child rows (spec §4.5). -/
def aggDefault : AggPrim → Cell
  | .count => some 0
  | .sum => some 0
  | _ => none

/-- Apply a unary transformation primitive row-wise; booleans are encoded
as 1/0. -/
def applyT1 : TransPrim1 → Cell → Cell
  | .absval, c => c.map (fun q => |q|)
  | .isNull, c => some (if c = none then 1 else 0)

/-- Apply a binary transformation primitive row-wise; a null operand (or a
zero divisor) yields the missing-value marker. -/
def applyT2 : TransPrim2 → Cell → Cell → Cell
  | .add, some a, some b => some (a + b)
  | .subtract, some a, some b => some (a - b)
  | .multiply, some a, some b => some (a * b)
  | .divide, some a, some b => if b = 0 then none else some (a / b)
  | _, _, _ => none

/-- Cutoff visibility of one row (spec §4.5): with a cutoff and a time
index, only rows whose time cell is a timestamp ≤ the cutoff are visible;
without a cutoff, or for an entity without a time index, every row is
visible. -/
def rowVisible (t : Table) (timeIndex : Option String) (cutoff : Option ℚ)
    (row : List Cell) : Bool :=
  match cutoff, timeIndex with
  | some tc, some tcol =>
      match t.getCell row tcol with
      | some tm => decide (tm ≤ tc)
      | none => false
  | _, _ => true

/-- The rows of an entity visible under an optional cutoff. -/
def Entity.visibleRows (e : Entity) (cutoff : Option ℚ) : List (List Cell) :=
  e.table.rows.filter (rowVisible e.table e.timeIndex cutoff)

/-- The time-index value of one row of an entity, if it has a time
index. -/
def Entity.rowTime (e : Entity) (row : List Cell) : Option ℚ :=
  match e.timeIndex with
  | some tcol => e.table.getCell row tcol
  | none => none

/-- The (cutoff-filtered) child rows matching an aggregate's relationship
key for one context row (spec §4.5): visible rows of the child entity
whose child-key cell equals the context row's parent-key cell; no rows
match when the parent key is null. -/
def matchingRows (cutoff : Option ℚ) (ctx : Entity) (row : List Cell)
    (r : Relationship) (ce : Entity) : List (List Cell) :=
  match ctx.table.getCell row r.parentKey with
  | some k =>
      (ce.visibleRows cutoff).filter
        (fun cr => ce.table.getCell cr r.childKey == some k)
  | none => []

/-- Modelled from the spec: the Feature Matrix Materializer's evaluation of
one feature definition at one row of a context entity (spec §4.5), absent
from the source (the script reaches it only through `ft.dfs`).  Identity
features read the row's own cell; transforms are row-wise on child values;
aggregates partition the cutoff-filtered child rows by the relationship
key and apply the aggregation primitive, empty groups yielding the
primitive default through `applyAgg`. -/
def evalFeature (es : EntitySet) (cutoff : Option ℚ) :
    Entity → List Cell → FeatureDef → Cell
  | ctx, row, .identity _ col => ctx.table.getCell row col
  | ctx, row, .transform1 p c =>
      applyT1 p (evalFeature es cutoff ctx row c)
  | ctx, row, .transform2 p a b =>
      applyT2 p (evalFeature es cutoff ctx row a)
        (evalFeature es cutoff ctx row b)
  | ctx, row, .aggregate p r c =>
      match es.lookup r.child with
      | none => none
      | some ce =>
          applyAgg p ((matchingRows cutoff ctx row r ce).map
            (fun cr => (evalFeature es cutoff ce cr c, ce.rowTime cr)))

/-- The Feature Matrix: a table keyed by the target entity's index with one
named column per feature definition (spec §3, §4.5). -/
structure FeatureMatrix where
  index : List Cell
  columns : List (String × List Cell)
deriving DecidableEq, Repr

/-- Modelled from the spec: `compute` of the Feature Matrix Materializer
(spec §4.5), reached in the source only through `ft.dfs`.  One row per
target-entity instance, indexed by the target's unique index, one column
per feature definition labelled with its canonical name. -/
def compute (defs : List FeatureDef) (es : EntitySet) (target : String)
    (cutoff : Option ℚ) : Option FeatureMatrix :=
  (es.lookup target).map (fun e =>
    { index := e.table.column e.index
      columns := defs.map (fun d =>
        (d.fname, e.table.rows.map (fun r => evalFeature es cutoff e r d))) })

/-- Output semantic type of a feature definition (spec §4.2, §4.3):
identities carry their column's declared type, arithmetic transforms and
numeric aggregations are numeric, `is-null` is boolean, `last` passes its
child's type through. -/
def FeatureDef.ftype (es : EntitySet) : FeatureDef → Option ColType
  | .identity ename c => (es.lookup ename).bind (fun e => e.table.colType c)
  | .transform1 .absval _ => some .numeric
  | .transform1 .isNull _ => some .boolean
  | .transform2 _ _ _ => some .numeric
  | .aggregate .last _ c => c.ftype es
  | .aggregate _ _ _ => some .numeric

/-- Which child-feature types an aggregation primitive accepts
(spec §4.2): numeric statistics need numeric input, `percent_true` needs
boolean, `count` and `last` accept any typed input. -/
def AggPrim.accepts : AggPrim → Option ColType → Bool
  | .mean, some .numeric => true
  | .max, some .numeric => true
  | .min, some .numeric => true
  | .sum, some .numeric => true
  | .count, some _ => true
  | .percentTrue, some .boolean => true
  | .last, some _ => true
  | _, _ => false

/-- Which child-feature types a unary transformation accepts. -/
def TransPrim1.accepts : TransPrim1 → Option ColType → Bool
  | .absval, some .numeric => true
  | .isNull, some _ => true
  | _, _ => false

/-- Deduplicate a candidate list by canonical name, keeping first
occurrences, skipping names already `seen` (spec §4.4 step 2c). -/
def dedupGo (seen : List String) : List FeatureDef → List FeatureDef
  | [] => []
  | f :: fs =>
      if f.fname ∈ seen then dedupGo seen fs
      else f :: dedupGo (f.fname :: seen) fs

/-- Depth-0 candidate pool of one entity: an identity feature for every
column except the entity's own index (spec §4.4 step 1). -/
def initFeats (e : Entity) : List FeatureDef :=
  (e.table.cols.filter (fun c => c.cname != e.index)).map
    (fun c => .identity e.name c.cname)

/-- A per-entity candidate pool, keyed by entity name in registration
order. -/
def Pool : Type := List (String × List FeatureDef)

/-- The pool entry of one entity. -/
def poolGet (pool : Pool) (n : String) : List FeatureDef :=
  match pool.find? (fun p => p.1 == n) with
  | some p => p.2
  | none => []

/-- Initial pool: deduplicated identity features per registered entity. -/
def initPool (es : EntitySet) : Pool :=
  es.entities.map (fun e => (e.name, dedupGo [] (initFeats e)))

/-- Is an entity inside the synthesis target's dependency scope, i.e.
reachable from the target along parent→child edges? -/
def inScope (es : EntitySet) (target n : String) : Bool :=
  reachB es.rels es.rels.length.succ target n

/-- One depth round of candidate expansion for one entity (spec §4.4
step 2): transformation expansion applies matching transformation
primitives to the target entity's own pool (transformations are
same-entity and target-local); aggregation expansion lifts every
type-matching feature of a direct child entity through each relationship
whose parent is this in-scope entity; the union is deduplicated by
canonical name. -/
def expandEntity (es : EntitySet) (aggs : List AggPrim)
    (t1s : List TransPrim1) (t2s : List TransPrim2) (target : String)
    (pool : Pool) (e : Entity) : List FeatureDef :=
  let old := poolGet pool e.name
  let transNew : List FeatureDef :=
    if e.name == target then
      (t1s.flatMap (fun p =>
        (old.filter (fun f => p.accepts (f.ftype es))).map
          (FeatureDef.transform1 p))) ++
      (t2s.flatMap (fun p =>
        (old.filter (fun f => f.ftype es == some .numeric)).flatMap (fun a =>
          (old.filter (fun f => f.ftype es == some .numeric)).map
            (fun b => FeatureDef.transform2 p a b))))
    else []
  let aggNew : List FeatureDef :=
    if inScope es target e.name then
      es.rels.flatMap (fun r =>
        if r.parent == e.name then
          aggs.flatMap (fun p =>
            (poolGet pool r.child).filterMap (fun f =>
              if p.accepts (f.ftype es) then
                some (FeatureDef.aggregate p r f)
              else none))
        else [])
    else []
  dedupGo [] (old ++ transNew ++ aggNew)

/-- One simultaneous expansion round over every entity's pool. -/
def stepPool (es : EntitySet) (aggs : List AggPrim) (t1s : List TransPrim1)
    (t2s : List TransPrim2) (target : String) (pool : Pool) : Pool :=
  es.entities.map (fun e =>
    (e.name, expandEntity es aggs t1s t2s target pool e))

/-- The candidate pool after `d` expansion rounds. -/
def synthPool (es : EntitySet) (aggs : List AggPrim) (t1s : List TransPrim1)
    (t2s : List TransPrim2) (target : String) : Nat → Pool
  | 0 => initPool es
  | d + 1 => stepPool es aggs t1s t2s target
      (synthPool es aggs t1s t2s target d)

/-- Modelled from the spec: `synthesize` of the Deep Feature Synthesis
engine (spec §4.4), reached in the source only through `ft.dfs`.  Runs
`max_depth` expansion rounds from the depth-0 identity pool and returns
the target entity's candidate list, deduplicated by canonical name;
expansion order is entity-registration order, then primitive-registration
order, then child-feature generation order. -/
def synthesize (es : EntitySet) (aggs : List AggPrim) (t1s : List TransPrim1)
    (t2s : List TransPrim2) (target : String) (maxDepth : Nat) :
    List FeatureDef :=
  dedupGo [] (poolGet (synthPool es aggs t1s t2s target maxDepth) target)

/-- Pandas column assignment `df[c] = vals`: replaces the column in place
when it exists, otherwise appends it. -/
def setColumn (t : Table) (c : String) (ty : ColType) (vals : List Cell) :
    Table :=
  match t.colIdx c with
  | some i =>
      { cols := t.cols.set i ⟨c, ty⟩
        rows := (t.rows.zip vals).map (fun p => p.1.set i p.2) }
  | none =>
      { cols := t.cols ++ [⟨c, ty⟩]
        rows := (t.rows.zip vals).map (fun p => p.1 ++ [p.2]) }

/-- Assign a column computed row-wise from the table's own rows (pandas
`df[c] = f(df)`). -/
def addDerivedColumn (t : Table) (c : String) (ty : ColType)
    (f : List Cell → Cell) : Table :=
  setColumn t c ty (t.rows.map f)

/-- The `loan_amount` cells of the loan rows belonging to one client, as
selected by the source's `loans.groupby('client_id')` (line 70). -/
def handLoanAmounts (loans : Table) (c : ℚ) : List Cell :=
  (loans.rows.filter (fun r => loans.getCell r "client_id" == some c)).map
    (fun r => loans.getCell r "loan_amount")

/-- The source's hand-written `mean` of a client's previous loan amounts
(line 70). -/
def handMeanLoanAmount (loans : Table) (c : ℚ) : Cell :=
  meanCells (handLoanAmounts loans c)

/-- The source's hand-written `max` of a client's previous loan amounts
(line 70). -/
def handMaxLoanAmount (loans : Table) (c : ℚ) : Cell :=
  maxCells (handLoanAmounts loans c)

/-- The source's hand-written `min` of a client's previous loan amounts
(line 70). -/
def handMinLoanAmount (loans : Table) (c : ℚ) : Cell :=
  minCells (handLoanAmounts loans c)

/-- The distinct non-null `client_id` group keys of the loans table
(pandas `groupby` drops null keys). -/
def groupKeys (loans : Table) : List ℚ :=
  (somes (loans.column "client_id")).dedup

/-- The columns of the source's `stats` frame after renaming (line 71). -/
def statsCols : List Column :=
  [⟨"mean_loan_amount", .numeric⟩, ⟨"max_loan_amount", .numeric⟩,
   ⟨"min_loan_amount", .numeric⟩]

/-- The source's `stats` frame (lines 70–71): one row per distinct client
id, carrying the mean/max/min of that client's loan amounts, keyed by the
client id. -/
def statsRows (loans : Table) : List (ℚ × List Cell) :=
  (groupKeys loans).map (fun k =>
    (k, [handMeanLoanAmount loans k, handMaxLoanAmount loans k,
         handMinLoanAmount loans k]))

/-- The source's `clients.merge(stats, left_on='client_id',
right_index=True, how='left')` (line 75): a new table extending each
client row with its stats row, null-filled when the client has no loans;
the input tables are untouched. -/
def mergeStats (clients loans : Table) : Table :=
  { cols := clients.cols ++ statsCols
    rows := clients.rows.map (fun r =>
      match clients.getCell r "client_id" with
      | some k =>
          match (statsRows loans).find? (fun p => p.1 == k) with
          | some p => r ++ p.2
          | none => r ++ [none, none, none]
      | none => r ++ [none, none, none]) }

/-- The source's in-place manual feature engineering on `clients`
(lines 56 and 59): assign `join_month` from the `joined` date and
`log_income` from `income`.  The calendar month extraction and `np.log`
are passed in as uninterpreted functions — no claim depends on their
values. -/
def scriptClients (month logf : ℚ → ℚ) (clients0 : Table) : Table :=
  let c1 := addDerivedColumn clients0 "join_month" .numeric
    (fun r => (clients0.getCell r "joined").map month)
  addDerivedColumn c1 "log_income" .numeric
    (fun r => (c1.getCell r "income").map logf)

/-- The merged frame built and discarded at line 75 of the source. -/
def scriptMergedClients (month logf : ℚ → ℚ) (clients0 loans0 : Table) :
    Table :=
  mergeStats (scriptClients month logf clients0) loans0

/-- The registration of the `clients` entity at lines 112–113 of the
source: the dataframe registered is `clients` after the in-place
assignments — not the discarded merge result. -/
def scriptRegisteredClients (month logf : ℚ → ℚ) (clients0 : Table) :
    Except SchemaError Entity :=
  registerEntity "clients" (scriptClients month logf clients0) "client_id"
    (some "joined")

/-- Remove from a table every row that occurred after time `tc` according
to the given time index; a table without a time index is untouched, and
rows with a null time cell are kept (they carry no timestamp after the
cutoff). -/
def dropLateTable (t : Table) (timeIndex : Option String) (tc : ℚ) : Table :=
  match timeIndex with
  | none => t
  | some tcol =>
      { cols := t.cols
        rows := t.rows.filter (fun r =>
          match t.getCell r tcol with
          | some tm => decide (tm ≤ tc)
          | none => true) }

/-- Remove an entity's rows that occurred after time `tc`. -/
def dropLateEntity (e : Entity) (tc : ℚ) : Entity :=
  { e with table := dropLateTable e.table e.timeIndex tc }

/-- Remove every row occurring after time `tc` from every entity of an
entity set. -/
def dropLateES (es : EntitySet) (tc : ℚ) : EntitySet :=
  { es with entities := es.entities.map (fun e => dropLateEntity e tc) }

/-- The `clients` table of the spec's concrete cutoff scenario (§8): one
client, joined at time 1 (months as rational timestamps). -/
def exClientsTable : Table :=
  { cols := [⟨"client_id", .numeric⟩, ⟨"joined", .datetime⟩,
             ⟨"income", .numeric⟩]
    rows := [[some 1, some 1, some 100]] }

/-- The `loans` table of the concrete scenario: the client's only loan
starts at time 6, after the cutoff 5. -/
def exLoansTable : Table :=
  { cols := [⟨"loan_id", .numeric⟩, ⟨"client_id", .numeric⟩,
             ⟨"loan_amount", .numeric⟩, ⟨"loan_start", .datetime⟩]
    rows := [[some 10, some 1, some 500, some 6]] }

/-- The `payments` table of the three-entity chain: one payment on the
loan, at time 7. -/
def exPaymentsTable : Table :=
  { cols := [⟨"payment_id", .numeric⟩, ⟨"loan_id", .numeric⟩,
             ⟨"payment_amount", .numeric⟩, ⟨"payment_date", .datetime⟩]
    rows := [[some 100, some 10, some 50, some 7]] }

/-- The registered `clients` entity of the concrete scenario. -/
def exClients : Entity := ⟨"clients", exClientsTable, "client_id", some "joined"⟩

/-- The registered `loans` entity of the concrete scenario. -/
def exLoans : Entity := ⟨"loans", exLoansTable, "loan_id", some "loan_start"⟩

/-- The registered `payments` entity of the concrete scenario. -/
def exPayments : Entity :=
  ⟨"payments", exPaymentsTable, "payment_id", some "payment_date"⟩

/-- The clients→loans relationship on `client_id`. -/
def exRelCL : Relationship := ⟨"clients", "client_id", "loans", "client_id"⟩

/-- The loans→payments relationship on `loan_id`. -/
def exRelLP : Relationship := ⟨"loans", "loan_id", "payments", "loan_id"⟩

/-- The two-entity entity set of the concrete cutoff scenario. -/
def exES : EntitySet := ⟨[exClients, exLoans], [exRelCL]⟩

/-- The three-entity chain clients→loans→payments. -/
def exES3 : EntitySet :=
  ⟨[exClients, exLoans, exPayments], [exRelCL, exRelLP]⟩

/-- The depth-1 feature `MEAN(loans.loan_amount)`. -/
def exMeanLoan : FeatureDef :=
  .aggregate .mean exRelCL (.identity "loans" "loan_amount")

/-- The one client row of the concrete scenario. -/
def exClientRow : List Cell := [some 1, some 1, some 100]

/-! ## Helper lemmas -/

lemma join_nil : String.join ([] : List String) = "" := rfl

lemma join_cons (s : String) (l : List String) :
    String.join (s :: l) = s ++ String.join l := by
  apply String.ext; simp [String.join_eq]

lemma join_append (l1 l2 : List String) :
    String.join (l1 ++ l2) = String.join l1 ++ String.join l2 := by
  apply String.ext; simp [String.join_eq]

lemma visibleRows_none (e : Entity) : e.visibleRows none = e.table.rows := by
  unfold Entity.visibleRows rowVisible
  exact List.filter_true _

lemma dedupGo_names (l : List FeatureDef) :
    ∀ seen : List String,
      ((dedupGo seen l).map FeatureDef.fname).Nodup ∧
      ∀ n ∈ (dedupGo seen l).map FeatureDef.fname, n ∉ seen := by
  induction l with
  | nil => intro seen; simp [dedupGo]
  | cons f fs ih =>
      intro seen
      by_cases h : f.fname ∈ seen
      · simpa [dedupGo, h] using ih seen
      · have ih' := ih (f.fname :: seen)
        refine ⟨?_, ?_⟩
        · simp only [dedupGo, if_neg h, List.map_cons, List.nodup_cons]
          exact ⟨fun hmem => (ih'.2 _ hmem) (List.mem_cons_self _ _), ih'.1⟩
        · intro n hn
          simp only [dedupGo, if_neg h, List.map_cons, List.mem_cons] at hn
          rcases hn with rfl | hn
          · exact h
          · exact fun hseen => (ih'.2 n hn) (List.mem_cons_of_mem _ hseen)

/-! ## Claim theorems -/

/-- C7.  Registering a table as an entity fails with a `SchemaError` if and
only if the declared index column is missing, contains a null value, or has
duplicate values. -/
theorem registerEntity_fails_iff (n : String) (t : Table) (i : String)
    (ti : Option String) :
    (∃ err, registerEntity n t i ti = Except.error err) ↔
      (t.colIdx i = none ∨ (∃ c ∈ t.column i, c = none) ∨
        ¬ (t.column i).Nodup) := by
  unfold registerEntity
  split_ifs with h1 h2 h3 <;> simp_all

/-- Witness for C7: registering the clients table under a declared index
column that the table does not have fails, as the theorem predicts. -/
theorem registerEntity_fails_iff_witness :
    ∃ err, registerEntity "clients" exClientsTable "absent" none
      = Except.error err :=
  (registerEntity_fails_iff "clients" exClientsTable "absent" none).mpr
    (Or.inl (by decide))

/-- C8.  Adding a relationship edge fails with a `RelationshipError` if and
only if the edge would close a directed cycle, the two key columns'
declared types differ, or the parent key is not unique in the parent
entity. -/
theorem addRelationship_fails_iff (es : EntitySet) (r : Relationship) :
    (∃ err, addRelationship es r = Except.error err) ↔
      (wouldCycle es r = true ∨ keyTypesMismatch es r = true ∨
        parentKeyNotUnique es r = true) := by
  unfold addRelationship
  split_ifs with h1 h2 h3 <;> simp_all

/-- Witness for C8: adding loans→payments to the two-entity set joins a
numeric key to a key of a missing column, a type mismatch, and the call
fails. -/
theorem addRelationship_fails_iff_witness :
    ∃ err, addRelationship exES exRelLP = Except.error err :=
  (addRelationship_fails_iff exES exRelLP).mpr
    (Or.inr (Or.inl (by decide)))

/-- C5.  The canonical name of a feature definition is a pure function of
its (primitive, operands) structure: it satisfies the recursive format
`PRIMITIVE(child_name)` for transforms (operand names comma-separated in
the binary case) and `PRIMITIVE(child_entity.child_name)` for aggregates,
and it is independent of the build order — concatenating the name pieces
emitted by a flat token-pushing traversal yields the same string as the
recursive construction, for every definition. -/
theorem canonical_name_structural :
    (∀ (ename col : String),
        (FeatureDef.identity ename col).fname = col) ∧
    (∀ (p : TransPrim1) (c : FeatureDef),
        (FeatureDef.transform1 p c).fname
          = p.pname ++ "(" ++ c.fname ++ ")") ∧
    (∀ (p : TransPrim2) (a b : FeatureDef),
        (FeatureDef.transform2 p a b).fname
          = p.pname ++ "(" ++ a.fname ++ ", " ++ b.fname ++ ")") ∧
    (∀ (p : AggPrim) (r : Relationship) (c : FeatureDef),
        (FeatureDef.aggregate p r c).fname
          = p.pname ++ "(" ++ r.child ++ "." ++ c.fname ++ ")") ∧
    (∀ d : FeatureDef, String.join d.nameTokens = d.fname) := by
  refine ⟨fun _ _ => rfl, fun _ _ => rfl, fun _ _ _ => rfl,
    fun _ _ _ => rfl, ?_⟩
  intro d
  induction d with
  | identity ename col => simp [FeatureDef.nameTokens, FeatureDef.fname, join_cons, join_nil]
  | transform1 p c ih =>
      simp [FeatureDef.nameTokens, FeatureDef.fname, join_cons, join_append, join_nil,
        ih, String.append_assoc]
  | transform2 p a b iha ihb =>
      simp [FeatureDef.nameTokens, FeatureDef.fname, join_cons, join_append, join_nil,
        iha, ihb, String.append_assoc]
  | aggregate p r c ih =>
      simp [FeatureDef.nameTokens, FeatureDef.fname, join_cons, join_append, join_nil,
        ih, String.append_assoc]

/-- C4.  Synthesis and computation are deterministic: with identical
inputs — the same entity set in the same registration order, the same
primitive lists in the same registration order, the same target, depth
bound and cutoff — two runs of `synthesize` yield identical candidate
lists and two runs of `compute` on them yield identical feature
matrices.  In this embedding both are pure functions of exactly these
inputs, so the two runs coincide definitionally. -/
theorem synthesis_deterministic (es : EntitySet) (aggs : List AggPrim)
    (t1s : List TransPrim1) (t2s : List TransPrim2) (target : String)
    (maxDepth : Nat) (cutoff : Option ℚ) :
    synthesize es aggs t1s t2s target maxDepth
      = synthesize es aggs t1s t2s target maxDepth ∧
    compute (synthesize es aggs t1s t2s target maxDepth) es target cutoff
      = compute (synthesize es aggs t1s t2s target maxDepth) es target
          cutoff :=
  ⟨rfl, rfl⟩

/-- C6.  Missing-group default: when a target row has zero matching child
rows under an Aggregate feature's relationship, evaluation yields the
primitive-defined default — 0 for `count`, the missing-value marker for
`mean`, `max`, `min`, `last` and `percent_true` — and, being a total
function, never an error. -/
theorem empty_group_default (es : EntitySet) (cutoff : Option ℚ)
    (ctx : Entity) (row : List Cell) (p : AggPrim) (r : Relationship)
    (c : FeatureDef) (ce : Entity)
    (hce : es.lookup r.child = some ce)
    (hempty : matchingRows cutoff ctx row r ce = []) :
    evalFeature es cutoff ctx row (.aggregate p r c) = aggDefault p := by
  simp only [evalFeature, hce, hempty, List.map_nil]
  cases p <;>
    simp [applyAgg, aggDefault, meanCells, maxCells, minCells,
      percentTrueCells, lastCells, somes]

/-- Witness for C6: in the concrete cutoff scenario the client's only loan
is invisible, the group is empty, and `COUNT(loans.loan_amount)` is the
default 0. -/
theorem empty_group_default_witness :
    evalFeature exES (some 5) exClients exClientRow
      (.aggregate .count exRelCL (.identity "loans" "loan_amount"))
      = aggDefault .count :=
  empty_group_default exES (some 5) exClients exClientRow .count exRelCL
    (.identity "loans" "loan_amount") exLoans (by decide) (by decide)

/-- C3.  A depth-1 Aggregate feature equals the hand-written group-by: for
any client key `c`, the engine's `MEAN(loans.loan_amount)` (and likewise
`MAX` and `MIN`) at a target row carrying that key equals the source's
direct `loans.groupby('client_id')['loan_amount']` aggregation over the
loan rows whose `client_id` equals `c`. -/
theorem depth1_agg_matches_hand (es : EntitySet) (ctx le : Entity)
    (row : List Cell) (c : ℚ) (r : Relationship) (en : String)
    (hle : es.lookup r.child = some le)
    (hkey : r.childKey = "client_id")
    (hrow : ctx.table.getCell row r.parentKey = some c) :
    evalFeature es none ctx row
        (.aggregate .mean r (.identity en "loan_amount"))
      = handMeanLoanAmount le.table c ∧
    evalFeature es none ctx row
        (.aggregate .max r (.identity en "loan_amount"))
      = handMaxLoanAmount le.table c ∧
    evalFeature es none ctx row
        (.aggregate .min r (.identity en "loan_amount"))
      = handMinLoanAmount le.table c := by
  refine ⟨?_, ?_, ?_⟩ <;>
    simp [evalFeature, hle, matchingRows, hrow, hkey, visibleRows_none,
      applyAgg, handMeanLoanAmount, handMaxLoanAmount, handMinLoanAmount,
      handLoanAmounts, List.map_map, Function.comp_def]

/-- Witness for C3: in the concrete scenario (no cutoff) the engine's
mean/max/min of the client's loan amounts equal the hand-written
group-by's values. -/
theorem depth1_agg_matches_hand_witness :
    evalFeature exES none exClients exClientRow
        (.aggregate .mean exRelCL (.identity "loans" "loan_amount"))
      = handMeanLoanAmount exLoansTable 1 ∧
    evalFeature exES none exClients exClientRow
        (.aggregate .max exRelCL (.identity "loans" "loan_amount"))
      = handMaxLoanAmount exLoansTable 1 ∧
    evalFeature exES none exClients exClientRow
        (.aggregate .min exRelCL (.identity "loans" "loan_amount"))
      = handMinLoanAmount exLoansTable 1 :=
  depth1_agg_matches_hand exES exClients exLoans exClientRow 1 exRelCL
    "loans" (by decide) (by decide) (by decide)

/-- C2.  Shape of the Feature Matrix: for every entity set, synthesized
feature-definition list, target and optional cutoff, `compute` returns a
matrix whose index is exactly the target entity's unique-index column (in
particular of the target's row count), every feature column has one value
per target row, and no two columns share a name. -/
theorem compute_matrix_shape (es : EntitySet) (aggs : List AggPrim)
    (t1s : List TransPrim1) (t2s : List TransPrim2) (target : String)
    (maxDepth : Nat) (cutoff : Option ℚ) (e : Entity)
    (he : es.lookup target = some e) :
    ∃ m, compute (synthesize es aggs t1s t2s target maxDepth) es target
        cutoff = some m ∧
      m.index = e.table.column e.index ∧
      m.index.length = e.table.rows.length ∧
      (∀ col ∈ m.columns, col.2.length = e.table.rows.length) ∧
      (m.columns.map Prod.fst).Nodup := by
  refine ⟨⟨e.table.column e.index,
    (synthesize es aggs t1s t2s target maxDepth).map (fun d =>
      (d.fname, e.table.rows.map (fun r => evalFeature es cutoff e r d)))⟩,
    ?_, rfl, ?_, ?_, ?_⟩
  · simp [compute, he]
  · simp [Table.column]
  · intro col hcol
    simp only [List.mem_map] at hcol
    obtain ⟨d, _, rfl⟩ := hcol
    simp
  · simp only [List.map_map]
    have hf : (Prod.fst ∘ fun d : FeatureDef =>
        (d.fname, e.table.rows.map (fun r => evalFeature es cutoff e r d)))
          = FeatureDef.fname := rfl
    rw [hf]
    exact (dedupGo_names _ []).1

/-- Witness for C2: computing the synthesized features for the concrete
two-entity set yields a matrix of the required shape. -/
theorem compute_matrix_shape_witness :
    ∃ m, compute (synthesize exES [.mean] [] [] "clients" 1) exES "clients"
        none = some m ∧
      m.index = exClients.table.column exClients.index ∧
      m.index.length = exClients.table.rows.length ∧
      (∀ col ∈ m.columns, col.2.length = exClients.table.rows.length) ∧
      (m.columns.map Prod.fst).Nodup :=
  compute_matrix_shape exES [.mean] [] [] "clients" 1 none exClients
    (by decide)

/-- C9.  On the three-entity chain clients→loans→payments with
`max_depth = 2`, synthesis produces at least one candidate of depth 2
referencing both relationships: an aggregation over loans of an
aggregation over payments. -/
theorem dfs_depth2_feature :
    ∃ f ∈ synthesize exES3 [.mean] [] [] "clients" 2,
      f.depth = 2 ∧ f.usesRel exRelCL = true ∧ f.usesRel exRelLP = true :=
  ⟨.aggregate .mean exRelCL
      (.aggregate .mean exRelLP (.identity "payments" "payment_amount")),
    by decide, by decide, by decide, by decide⟩

lemma dropLateTable_getCell (t : Table) (ti : Option String) (tc : ℚ)
    (row : List Cell) (c : String) :
    (dropLateTable t ti tc).getCell row c = t.getCell row c := by
  cases ti <;> rfl

lemma dropLateEntity_getCell (e : Entity) (tc : ℚ) (row : List Cell)
    (c : String) :
    (dropLateEntity e tc).table.getCell row c = e.table.getCell row c :=
  dropLateTable_getCell e.table e.timeIndex tc row c

lemma rowTime_dropLate (e : Entity) (tc : ℚ) (row : List Cell) :
    (dropLateEntity e tc).rowTime row = e.rowTime row := by
  show Entity.rowTime _ row = _
  unfold Entity.rowTime
  cases h : e.timeIndex with
  | none => simp [dropLateEntity, h]
  | some tcol => simp [dropLateEntity, h, dropLateTable_getCell]

lemma lookup_dropLateES (es : EntitySet) (tc : ℚ) (n : String) :
    (dropLateES es tc).lookup n
      = (es.lookup n).map (fun e => dropLateEntity e tc) := by
  simp only [EntitySet.lookup, dropLateES, List.find?_map]
  rfl

lemma visibleRows_dropLate (e : Entity) (tc : ℚ) :
    (dropLateEntity e tc).visibleRows (some tc)
      = e.visibleRows (some tc) := by
  show Entity.visibleRows _ (some tc) = _
  unfold Entity.visibleRows
  cases h : e.timeIndex with
  | none => simp [dropLateEntity, dropLateTable, h]
  | some tcol =>
      have htab : (dropLateEntity e tc).table
          = ⟨e.table.cols, e.table.rows.filter (fun r =>
              match e.table.getCell r tcol with
              | some tm => decide (tm ≤ tc)
              | none => true)⟩ := by
        simp [dropLateEntity, dropLateTable, h]
      have hti : (dropLateEntity e tc).timeIndex = some tcol := h
      rw [htab, hti]
      show List.filter _ (List.filter _ e.table.rows) = _
      rw [List.filter_filter]
      apply List.filter_congr
      intro r _
      have hg : Table.getCell ⟨e.table.cols, e.table.rows.filter (fun r =>
          match e.table.getCell r tcol with
          | some tm => decide (tm ≤ tc)
          | none => true)⟩ r tcol = e.table.getCell r tcol := rfl
      simp only [rowVisible, hg]
      cases e.table.getCell r tcol <;> simp

lemma evalFeature_dropLate (es : EntitySet) (tc : ℚ) (d : FeatureDef) :
    ∀ (ctx : Entity) (row : List Cell),
      evalFeature (dropLateES es tc) (some tc) (dropLateEntity ctx tc) row d
        = evalFeature es (some tc) ctx row d := by
  induction d with
  | identity en col =>
      intro ctx row
      simp only [evalFeature]
      exact dropLateEntity_getCell ctx tc row col
  | transform1 p c ih =>
      intro ctx row
      simp only [evalFeature, ih]
  | transform2 p a b iha ihb =>
      intro ctx row
      simp only [evalFeature, iha, ihb]
  | aggregate p r c ih =>
      intro ctx row
      simp only [evalFeature, lookup_dropLateES]
      cases hce : es.lookup r.child with
      | none => simp
      | some ce =>
          simp only [Option.map_some']
          have hm : matchingRows (some tc) (dropLateEntity ctx tc) row r
              (dropLateEntity ce tc) = matchingRows (some tc) ctx row r ce := by
            unfold matchingRows
            rw [dropLateEntity_getCell]
            cases hk : ctx.table.getCell row r.parentKey with
            | none => rfl
            | some k =>
                rw [visibleRows_dropLate]
                apply List.filter_congr
                intro cr _
                rw [dropLateEntity_getCell]
          rw [hm]
          apply congrArg
          apply List.map_congr_left
          intro cr _
          rw [ih, rowTime_dropLate]

/-- C1.  Cutoff leakage-freedom: deleting from every entity all rows whose
time index exceeds the cutoff never changes any feature value evaluated
under that cutoff — so no feature value for a target row depends on any
row of any entity occurring after the row's cutoff; and in the spec's
concrete scenario, where the client's only loan starts after the cutoff,
`MEAN(loans.loan_amount)` for that client is the missing-value marker. -/
theorem cutoff_leakage_freedom :
    (∀ (es : EntitySet) (tc : ℚ) (ctx : Entity) (row : List Cell)
        (d : FeatureDef),
      evalFeature (dropLateES es tc) (some tc) (dropLateEntity ctx tc) row d
        = evalFeature es (some tc) ctx row d) ∧
    evalFeature exES (some 5) exClients exClientRow exMeanLoan = none :=
  ⟨fun es tc ctx row d => evalFeature_dropLate es tc d ctx row, by decide⟩

lemma colIdx_eq_none (t : Table) (c : String) :
    t.colIdx c = none ↔ c ∉ t.colNames := by
  simp only [Table.colIdx, List.indexOf?_eq_none_iff, beq_iff_eq]
  constructor
  · intro h hc
    exact h c hc rfl
  · intro h x hx hxc
    exact h (hxc ▸ hx)

lemma setColumn_colNames_new (t : Table) (c : String) (ty : ColType)
    (vals : List Cell) (h : c ∉ t.colNames) :
    (setColumn t c ty vals).colNames = t.colNames ++ [c] := by
  have hidx : t.colIdx c = none := (colIdx_eq_none t c).mpr h
  simp [setColumn, hidx, Table.colNames]

lemma addDerivedColumn_colNames (t : Table) (c : String) (ty : ColType)
    (f : List Cell → Cell) (h : c ∉ t.colNames) :
    (addDerivedColumn t c ty f).colNames = t.colNames ++ [c] :=
  setColumn_colNames_new t c ty (t.rows.map f) h

/-- C10.  The hand-written merge does not persist: the `clients` frame the
script registers as an entity carries the in-place columns `join_month`
and `log_income` but none of the merged `mean/max/min_loan_amount`
columns — the merge result is a separate table (which does carry them) and
is discarded, leaving `clients` itself unchanged. -/
theorem merge_result_not_persisted (month logf : ℚ → ℚ)
    (clients0 loans0 : Table)
    (h1 : "join_month" ∉ clients0.colNames)
    (h2 : "log_income" ∉ clients0.colNames) :
    (scriptClients month logf clients0).colNames
      = clients0.colNames ++ ["join_month", "log_income"] ∧
    (scriptMergedClients month logf clients0 loans0).colNames
      = (clients0.colNames ++ ["join_month", "log_income"])
        ++ ["mean_loan_amount", "max_loan_amount", "min_loan_amount"] ∧
    (∀ s ∈ ["mean_loan_amount", "max_loan_amount", "min_loan_amount"],
      s ∉ clients0.colNames →
        s ∉ (scriptClients month logf clients0).colNames) ∧
    (∀ ent, scriptRegisteredClients month logf clients0 = Except.ok ent →
      ent.table = scriptClients month logf clients0) := by
  have h2' : "log_income" ∉ (addDerivedColumn clients0 "join_month"
      ColType.numeric
      (fun r => (clients0.getCell r "joined").map month)).colNames := by
    rw [addDerivedColumn_colNames _ _ _ _ h1]
    simp [h2]
  have hA : (scriptClients month logf clients0).colNames
      = clients0.colNames ++ ["join_month", "log_income"] := by
    show (addDerivedColumn (addDerivedColumn clients0 "join_month"
      ColType.numeric (fun r => (clients0.getCell r "joined").map month))
      "log_income" ColType.numeric _).colNames = _
    rw [addDerivedColumn_colNames _ _ _ _ h2',
      addDerivedColumn_colNames _ _ _ _ h1]
    simp
  refine ⟨hA, ?_, ?_, ?_⟩
  · have hm : (scriptMergedClients month logf clients0 loans0).colNames
        = (scriptClients month logf clients0).colNames
          ++ ["mean_loan_amount", "max_loan_amount", "min_loan_amount"] := by
      simp [scriptMergedClients, mergeStats, Table.colNames, statsCols]
    rw [hm, hA]
  · intro s hs hns
    rw [hA]
    simp only [List.mem_append, List.mem_cons, List.mem_singleton]
    rintro (hc | hc)
    · exact hns hc
    · fin_cases hs <;> simp_all
  · intro ent h
    unfold scriptRegisteredClients registerEntity at h
    split_ifs at h
    cases h
    rfl

/-- Witness for C10: on the concrete clients table (whose columns are
`client_id`, `joined`, `income`) with identity stand-ins for the month and
log functions, the registered frame gains exactly `join_month` and
`log_income` and carries no merged loan-amount statistics. -/
theorem merge_result_not_persisted_witness :
    (scriptClients id id exClientsTable).colNames
      = exClientsTable.colNames ++ ["join_month", "log_income"] ∧
    (scriptMergedClients id id exClientsTable exLoansTable).colNames
      = (exClientsTable.colNames ++ ["join_month", "log_income"])
        ++ ["mean_loan_amount", "max_loan_amount", "min_loan_amount"] ∧
    (∀ s ∈ ["mean_loan_amount", "max_loan_amount", "min_loan_amount"],
      s ∉ exClientsTable.colNames →
        s ∉ (scriptClients id id exClientsTable).colNames) ∧
    (∀ ent, scriptRegisteredClients id id exClientsTable = Except.ok ent →
      ent.table = scriptClients id id exClientsTable) :=
  merge_result_not_persisted id id exClientsTable exLoansTable
    (by decide) (by decide)

